import Mathlib

/-!
# Verification of the waveling middle-end against its specification

This development shallowly embeds the parts of the waveling compiler that the
frozen claims are about:

* the vector-constant arithmetic with broadcasting of
  `crates/core/src/constant.rs` (`do_binop` and the `fold_*` family) and of
  `crates/const/src/lib.rs` (`broadcasting_op` and the `try_*` family);
* the operation-graph `Program` of `crates/core/src/program.rs`
  (`new`, `add_input` .. `add_state`, `connect`, the `op_*_node` helpers);
* the `insert_start_final_edges` pass of
  `crates/core/src/passes/insert_start_final_edges.rs`;
* the external-table lookups of the type-inference pass
  (`crates/core/src/passes/type_inference.rs`, `IsFromInput` /
  `IsFromProperty` / `IsFromOutput` resolution);
* the reference interpreter of `crates/interpreter/src/lib.rs` and
  `crates/interpreter/src/ops.rs`, restricted to the instruction kinds the
  claims exercise (`Add`, `ReadState`, `WriteState` and the relative
  variants, `ToF32`, `WriteOutput`, `ReadInput`).

Modelling conventions:

* Rust machine integers are modelled as `Int`/`Nat`; wrapping casts that the
  code performs (`i64 as i32`) are modelled with an explicit reduction
  modulo `2^32`.  Arithmetic overflow of `i64`/`u64` (which panics in debug
  builds and is never reached by the inputs of the claims) is not modelled.
* Rust `f32`/`f64` payloads are modelled as `Rat`.  The only floating
  operations the settled claims exercise are integer-to-float conversions of
  values far below `2^24`, where the conversion is exact, and copies.
* A Rust panic (out-of-bounds `Vec` index, `copy_from_slice` length
  mismatch) is modelled as a distinguished error value, clearly named.
* Arena/graph handles are modelled as list indices; the repository never
  deletes nodes, values or states, so generation tags are irrelevant.
-/

namespace Waveling

/-! ## Core constants: `crates/core/src/constant.rs` -/

/-- Model of `Constant` of `crates/core/src/constant.rs`: a vector constant.
The variants are `Bool`, `I64`, `F32`, `F64` (the core crate has no I32). -/
inductive CoreConstant where
  | bool (v : List Bool)
  | i64 (v : List Int)
  | f32 (v : List Rat)
  | f64 (v : List Rat)
  deriving DecidableEq, Repr

/-- Model of `ConstantFoldingError` of `crates/core/src/constant.rs`, extended with
`panicked`, which models the Rust panic raised by the out-of-bounds `Vec`
index `l[(i % total_len) as usize]` inside the `arm!` macro of `do_binop`. -/
inductive ConstantFoldingError where
  | zeroWidthConstant
  | incompatibleTypes
  | unsupportedType
  | incompatibleWidths
  | panicked
  deriving DecidableEq, Repr

namespace CoreConstant

/-- Model of `Constant::width`. -/
def width : CoreConstant → Nat
  | .bool v => v.length
  | .i64 v => v.length
  | .f32 v => v.length
  | .f64 v => v.length

end CoreConstant

/-- The body of the `arm!` macro in `do_binop`
(`crates/core/src/constant.rs` lines 93-103): element `i` of the output is
`case_fn(l[(i % total_len)], r[(i % total_len)])`.  Note that the source
indexes BOTH operands by `i % total_len`, not by `i %` the operand width;
an out-of-bounds index is a Rust panic, modelled as `none`. -/
def doBinopArm (totalLen : Nat) (l r : List α) (f : α → α → α) :
    Option (List α) :=
  (List.range totalLen).mapM fun i =>
    match l.get? (i % totalLen), r.get? (i % totalLen) with
    | some a, some b => some (f a b)
    | _, _ => none

/-- Model of `do_binop` of `crates/core/src/constant.rs` (lines 76-114): width checks,
then the per-primitive `arm!` dispatch.  A per-primitive case of `none`
models the Rust `Option` argument being `None` (`UnsupportedType`). -/
def do_binop (left right : CoreConstant)
    (boolCase : Option (Bool → Bool → Bool))
    (i64Case : Option (Int → Int → Int))
    (f32Case : Option (Rat → Rat → Rat))
    (f64Case : Option (Rat → Rat → Rat)) :
    Except ConstantFoldingError CoreConstant :=
  if left.width = 0 ∨ right.width = 0 then
    .error .zeroWidthConstant
  else if left.width ≠ right.width ∧ left.width ≠ 1 ∧ right.width ≠ 1 then
    .error .incompatibleWidths
  else
    let totalLen := max left.width right.width
    match left, right with
    | .bool l, .bool r =>
      match boolCase with
      | none => .error .unsupportedType
      | some f =>
        match doBinopArm totalLen l r f with
        | some out => .ok (.bool out)
        | none => .error .panicked
    | .i64 l, .i64 r =>
      match i64Case with
      | none => .error .unsupportedType
      | some f =>
        match doBinopArm totalLen l r f with
        | some out => .ok (.i64 out)
        | none => .error .panicked
    | .f32 l, .f32 r =>
      match f32Case with
      | none => .error .unsupportedType
      | some f =>
        match doBinopArm totalLen l r f with
        | some out => .ok (.f32 out)
        | none => .error .panicked
    | .f64 l, .f64 r =>
      match f64Case with
      | none => .error .unsupportedType
      | some f =>
        match doBinopArm totalLen l r f with
        | some out => .ok (.f64 out)
        | none => .error .panicked
    | _, _ => .error .incompatibleTypes

/-- Truncated division on rationals, rounding toward zero; the rounding mode
of the Rust `%` operator on floats. -/
def ratTruncDiv (a b : Rat) : Int :=
  if 0 ≤ a / b then (a / b).floor else (a / b).ceil

/-- The Rust `%` operator on floats: `a - b * trunc(a / b)`. -/
def ratRem (a b : Rat) : Rat := a - b * (ratTruncDiv a b : Rat)

/-- The Rust `%` operator on `i64` (the closure the `numeric_binop!`
expansion for `rem` passes to `do_binop`): it PANICS on a zero divisor
(modelled as `none`); for a nonzero divisor it is the truncated remainder
`Int.tmod`.  (The overflow panic of `i64::MIN % -1` is outside the
embedded fragment, like all `i64` overflow.) -/
def i64RemPanicking (a b : Int) : Option Int :=
  if b = 0 then none else some (Int.tmod a b)

/-- The body of the `arm!` macro of `do_binop` for a case closure that can
itself panic (the Rust `%` closures): `none` models a panic, whether it
comes from the out-of-bounds index `l[(i % total_len)]` or from inside the
closure. -/
def doBinopArmPanicking (totalLen : Nat) (l r : List α)
    (f : α → α → Option α) : Option (List α) :=
  (List.range totalLen).mapM fun i =>
    match l.get? (i % totalLen), r.get? (i % totalLen) with
    | some a, some b => f a b
    | _, _ => none

/-- Model of `do_binop` of `crates/core/src/constant.rs` for case closures that can
themselves panic: identical to `do_binop` above except that each
per-primitive case returns `Option`, with `none` propagated as the Rust
panic.  Used by the `rem` fold, whose `%` closure panics on a zero
divisor. -/
def do_binopFallible (left right : CoreConstant)
    (boolCase : Option (Bool → Bool → Option Bool))
    (i64Case : Option (Int → Int → Option Int))
    (f32Case : Option (Rat → Rat → Option Rat))
    (f64Case : Option (Rat → Rat → Option Rat)) :
    Except ConstantFoldingError CoreConstant :=
  if left.width = 0 ∨ right.width = 0 then
    .error .zeroWidthConstant
  else if left.width ≠ right.width ∧ left.width ≠ 1 ∧ right.width ≠ 1 then
    .error .incompatibleWidths
  else
    let totalLen := max left.width right.width
    match left, right with
    | .bool l, .bool r =>
      match boolCase with
      | none => .error .unsupportedType
      | some f =>
        match doBinopArmPanicking totalLen l r f with
        | some out => .ok (.bool out)
        | none => .error .panicked
    | .i64 l, .i64 r =>
      match i64Case with
      | none => .error .unsupportedType
      | some f =>
        match doBinopArmPanicking totalLen l r f with
        | some out => .ok (.i64 out)
        | none => .error .panicked
    | .f32 l, .f32 r =>
      match f32Case with
      | none => .error .unsupportedType
      | some f =>
        match doBinopArmPanicking totalLen l r f with
        | some out => .ok (.f32 out)
        | none => .error .panicked
    | .f64 l, .f64 r =>
      match f64Case with
      | none => .error .unsupportedType
      | some f =>
        match doBinopArmPanicking totalLen l r f with
        | some out => .ok (.f64 out)
        | none => .error .panicked
    | _, _ => .error .incompatibleTypes

namespace CoreConstant

/-- Model of `Constant::fold_add` (the `numeric_binop!` expansion for `add`):
no bool case, `i64`/`f32`/`f64` cases are the `+` of the host. -/
def fold_add (l r : CoreConstant) : Except ConstantFoldingError CoreConstant :=
  do_binop l r none (some (· + ·)) (some (· + ·)) (some (· + ·))

/-- Model of `Constant::fold_sub`. -/
def fold_sub (l r : CoreConstant) : Except ConstantFoldingError CoreConstant :=
  do_binop l r none (some (· - ·)) (some (· - ·)) (some (· - ·))

/-- Model of `Constant::fold_mul`. -/
def fold_mul (l r : CoreConstant) : Except ConstantFoldingError CoreConstant :=
  do_binop l r none (some (· * ·)) (some (· * ·)) (some (· * ·))

/-- Model of `Constant::fold_rem` (the `numeric_binop!` expansion for `rem`): the Rust
`%` operator, i.e. the TRUNCATED remainder on integers (the sign of the
result follows the left operand), which PANICS on a zero divisor, and the
float remainder on floats.  Because the closure itself can panic, this
fold goes through `do_binopFallible` below. -/
def fold_rem (l r : CoreConstant) : Except ConstantFoldingError CoreConstant :=
  do_binopFallible l r none (some i64RemPanicking)
    (some fun a b => some (ratRem a b)) (some fun a b => some (ratRem a b))

/-- Model of `Constant::fold_neg` (`crates/core/src/constant.rs` lines 147-157):
`do_binop` applied to the same constant on both sides, ignoring `b`. -/
def fold_neg (c : CoreConstant) : Except ConstantFoldingError CoreConstant :=
  do_binop c c none (some fun a _ => -a) (some fun a _ => -a)
    (some fun a _ => -a)

end CoreConstant

/-! ## The `const` crate: `crates/const/src/lib.rs` -/

/-- Model of `Constant` of `crates/const/src/lib.rs` (this crate does have I32). -/
inductive ConstConstant where
  | i32 (v : List Int)
  | i64 (v : List Int)
  | f32 (v : List Rat)
  | f64 (v : List Rat)
  | bool (v : List Bool)
  deriving DecidableEq, Repr

/-- Model of `Constant::get_width` of the const crate. -/
def ConstConstant.get_width : ConstConstant → Nat
  | .i32 v => v.length
  | .i64 v => v.length
  | .f32 v => v.length
  | .f64 v => v.length
  | .bool v => v.length

/-- The body of the `case!` macro in `broadcasting_op`
(`crates/const/src/lib.rs` lines 48-56): element `i` of the output is
`case(l[i % l.len()], r[i % r.len()])` — here each operand is indexed
modulo its OWN width.  Assumes nonempty operands (guaranteed by the
zero-width check in the caller); on an empty operand Rust would panic,
returned here as `none`. -/
def broadcastCase (l r : List α) (f : α → α → α) : Option (List α) :=
  match l, r with
  | a :: _, b :: _ =>
    some ((List.range (max l.length r.length)).map fun i =>
      f (l.getD (i % l.length) a) (r.getD (i % r.length) b))
  | _, _ => none

/-- Errors of the const crate constant operations (`CompilationError`
messages, abstracted to an enum). -/
inductive ConstOpError where
  | zeroWidth
  | differentDimensions
  | mixedTypes
  | unsupportedOn
  | panicked
  deriving DecidableEq, Repr

/-- Model of `broadcasting_op` of `crates/const/src/lib.rs` (lines 24-69): the width
checks, then the `case!` dispatch per primitive pair.  A case function of
`none` models the `type_unsupported` closures. -/
def broadcasting_op (left right : ConstConstant)
    (i32Case i64Case : Option (Int → Int → Int))
    (f32Case f64Case : Option (Rat → Rat → Rat))
    (boolCase : Option (Bool → Bool → Bool)) :
    Except ConstOpError ConstConstant :=
  if left.get_width = 0 ∨ right.get_width = 0 then
    .error .zeroWidth
  else if left.get_width ≠ right.get_width ∧ left.get_width ≠ 1 ∧
      right.get_width ≠ 1 then
    .error .differentDimensions
  else
    match left, right with
    | .i32 l, .i32 r =>
      match i32Case with
      | none => .error .unsupportedOn
      | some f =>
        match broadcastCase l r f with
        | some out => .ok (.i32 out)
        | none => .error .panicked
    | .i64 l, .i64 r =>
      match i64Case with
      | none => .error .unsupportedOn
      | some f =>
        match broadcastCase l r f with
        | some out => .ok (.i64 out)
        | none => .error .panicked
    | .f32 l, .f32 r =>
      match f32Case with
      | none => .error .unsupportedOn
      | some f =>
        match broadcastCase l r f with
        | some out => .ok (.f32 out)
        | none => .error .panicked
    | .f64 l, .f64 r =>
      match f64Case with
      | none => .error .unsupportedOn
      | some f =>
        match broadcastCase l r f with
        | some out => .ok (.f64 out)
        | none => .error .panicked
    | .bool l, .bool r =>
      match boolCase with
      | none => .error .unsupportedOn
      | some f =>
        match broadcastCase l r f with
        | some out => .ok (.bool out)
        | none => .error .panicked
    | _, _ => .error .mixedTypes

/-- Model of `Constant::try_add` of the const crate (`try_binop!` expansion): the
closure `|a, b| a + b` for all four numeric primitives; bool unsupported. -/
def ConstConstant.try_add (l r : ConstConstant) :
    Except ConstOpError ConstConstant :=
  broadcasting_op l r (some (· + ·)) (some (· + ·)) (some (· + ·))
    (some (· + ·)) none

/-- Model of `Constant::try_mul` of the const crate. -/
def ConstConstant.try_mul (l r : ConstConstant) :
    Except ConstOpError ConstConstant :=
  broadcasting_op l r (some (· * ·)) (some (· * ·)) (some (· * ·))
    (some (· * ·)) none

/-! ## The operation graph: `crates/core/src/program.rs` and friends

`SourceLoc` payloads are never inspected by any of the embedded operations,
only stored and copied; they are modelled as `Unit`. -/

/-- Model of `PrimitiveType` of `crates/core/src/vector_descriptor.rs`
(`Bool`, `I64`, `F32`, `F64`; the core crate has no I32). -/
inductive CPrimitiveType where
  | bool
  | i64
  | f32
  | f64
  deriving DecidableEq, Repr

/-- Model of `VectorDescriptor` of `crates/core/src/vector_descriptor.rs`. -/
structure CVectorDescriptor where
  primitive : CPrimitiveType
  width : Nat
  deriving DecidableEq, Repr

/-- Model of `State` of `crates/core/src/state.rs`. -/
structure CState where
  vector : CVectorDescriptor
  length : Nat
  deriving DecidableEq, Repr

/-- Model of `BinOp` of `crates/core/src/op.rs`. -/
inductive CBinOp where
  | add
  | sub
  | mul
  | div
  deriving DecidableEq, Repr

/-- Model of `Op` of `crates/core/src/op.rs`. -/
inductive COp where
  | constant (c : CoreConstant)
  | negate
  | binOp (o : CBinOp)
  | readInput (i : Nat)
  | writeOutput (i : Nat)
  | readProperty (i : Nat)
  | readState (state : Nat) (modulus : Bool)
  | writeState (state : Nat) (modulus : Bool)
  | clock
  | sr
  | cast (t : CPrimitiveType)
  | start
  | final
  deriving DecidableEq, Repr

/-- Model of `Op::is_start` (the `derive_more::IsVariant` accessor). -/
def COp.is_start : COp → Bool
  | .start => true
  | _ => false

/-- Model of `Op::is_final`. -/
def COp.is_final : COp → Bool
  | .final => true
  | _ => false

/-- Model of `Node` of `crates/core/src/node.rs`. -/
structure CNode where
  op : COp
  shape : Option CVectorDescriptor
  sourceLoc : Option Unit
  deriving DecidableEq, Repr

/-- An edge of the petgraph `DiGraph<Node, Edge>`, flattened: the endpoint
indices of the graph container together with the `Edge` weight of
`crates/core/src/edge.rs` (`input` plus an optional source location). -/
structure CEdge where
  src : Nat
  dst : Nat
  input : Nat
  sourceLoc : Option Unit
  deriving DecidableEq, Repr

/-- Model of `Program` of `crates/core/src/program.rs`.  Graph nodes are identified
by their position in `nodes` (petgraph `NodeIndex`; nodes are never
removed, so indices are stable). -/
structure CProgram where
  inputs : List CVectorDescriptor
  outputs : List CVectorDescriptor
  properties : List CPrimitiveType
  states : List CState
  nodes : List CNode
  edges : List CEdge
  startNode : Nat
  finalNode : Nat
  deriving DecidableEq, Repr

/-- Errors of the `Program` construction API (`anyhow::bail!` messages,
abstracted to an enum). -/
inductive ProgramError where
  | zeroWidthInput
  | zeroWidthOutput
  | zeroWidthState
  | zeroLengthState
  | unknownSourceNode
  | unknownDestinationNode
  | inputIndexOutOfRange
  | propertyIndexOutOfRange
  | outputIndexOutOfRange
  | stateIndexOutOfRange
  deriving DecidableEq, Repr

namespace CProgram

/-- Model of `Program::new` (`crates/core/src/program.rs` lines 56-80).  NOTE,
faithful to the source: BOTH the start node and the final node are created
with `op: Op::Start` (lines 59-69); no node carries `Op::Final`. -/
def new : CProgram where
  inputs := []
  outputs := []
  properties := []
  states := []
  nodes := [⟨.start, none, none⟩, ⟨.start, none, none⟩]
  edges := []
  startNode := 0
  finalNode := 1

/-- Model of `Program::add_input`: push the descriptor, return `inputs.len() - 1`. -/
def add_input (p : CProgram) (primitive : CPrimitiveType) (width : Nat) :
    Except ProgramError (CProgram × Nat) :=
  if width = 0 then .error .zeroWidthInput
  else
    let p := { p with inputs := p.inputs ++ [⟨primitive, width⟩] }
    .ok (p, p.inputs.length - 1)

/-- Model of `Program::add_output` (`crates/core/src/program.rs` lines 99-106).
NOTE, faithful to the source: the function returns
`self.inputs.len() - 1` — the INPUT table length — not the index of the
new output (line 105).  With an empty input table the Rust `usize`
subtraction underflows (a panic in debug builds); the `Nat` truncated
subtraction used here coincides with the source whenever
`inputs.len() ≥ 1`. -/
def add_output (p : CProgram) (primitive : CPrimitiveType) (width : Nat) :
    Except ProgramError (CProgram × Nat) :=
  if width = 0 then .error .zeroWidthOutput
  else
    let p := { p with outputs := p.outputs ++ [⟨primitive, width⟩] }
    .ok (p, p.inputs.length - 1)

/-- Model of `Program::add_property`: push the primitive, return its index. -/
def add_property (p : CProgram) (primitive : CPrimitiveType) :
    Except ProgramError (CProgram × Nat) :=
  let p := { p with properties := p.properties ++ [primitive] }
  .ok (p, p.properties.length - 1)

/-- Model of `Program::add_state`: validate nonzero width and length, push, return
the index. -/
def add_state (p : CProgram) (primitive : CPrimitiveType)
    (width length : Nat) : Except ProgramError (CProgram × Nat) :=
  if width = 0 then .error .zeroWidthState
  else if length = 0 then .error .zeroLengthState
  else
    let p := { p with states := p.states ++ [⟨⟨primitive, width⟩, length⟩] }
    .ok (p, p.states.length - 1)

/-- Model of `Program::connect` (`crates/core/src/program.rs` lines 144-169):
validate that both node handles exist, then `graph.add_edge` — which in
petgraph always adds a new (possibly parallel) edge.  The source comments:
"We do actually want to allow multiple edges here"; there is no check
against an existing `(src, dst, input)` triple. -/
def connect (p : CProgram) (fromNode toNode : Nat) (toInput : Nat)
    (sourceLoc : Option Unit) : Except ProgramError CProgram :=
  if (p.nodes.get? fromNode).isNone then .error .unknownSourceNode
  else if (p.nodes.get? toNode).isNone then .error .unknownDestinationNode
  else .ok { p with
    edges := p.edges ++ [⟨fromNode, toNode, toInput, sourceLoc⟩] }

/-- Model of `Program::op_node`: add a node, returning the fresh petgraph index
(the node count before the insertion). -/
def op_node (p : CProgram) (op : COp) (shape : Option CVectorDescriptor)
    (sourceLoc : Option Unit) : CProgram × Nat :=
  ({ p with nodes := p.nodes ++ [⟨op, shape, sourceLoc⟩] }, p.nodes.length)

/-- Model of `Program::op_read_input_node` (lines 192-206): rejects only
`input > self.inputs.len()` — strictly greater, so `input = len` (the
first out-of-range index) is accepted. -/
def op_read_input_node (p : CProgram) (input : Nat)
    (sourceLoc : Option Unit) : Except ProgramError (CProgram × Nat) :=
  if input > p.inputs.length then .error .inputIndexOutOfRange
  else .ok (p.op_node (.readInput input) none sourceLoc)

/-- Model of `Program::op_read_property_node` (lines 208-222): rejects only
`property > self.properties.len()`. -/
def op_read_property_node (p : CProgram) (property : Nat)
    (sourceLoc : Option Unit) : Except ProgramError (CProgram × Nat) :=
  if property > p.properties.length then .error .propertyIndexOutOfRange
  else .ok (p.op_node (.readProperty property) none sourceLoc)

/-- Model of `Program::op_write_output_node` (lines 224-238): rejects only
`output > self.outputs.len()`. -/
def op_write_output_node (p : CProgram) (output : Nat)
    (sourceLoc : Option Unit) : Except ProgramError (CProgram × Nat) :=
  if output > p.outputs.length then .error .outputIndexOutOfRange
  else .ok (p.op_node (.writeOutput output) none sourceLoc)

end CProgram

/-! ## Pass: `crates/core/src/passes/insert_start_final_edges.rs` -/

/-- Model of `ImplicitEdgeKind` (the private enum of the pass file). -/
inductive ImplicitEdgeKind where
  | noEdges
  | start
  | final
  deriving DecidableEq, Repr

/-- Model of `implicit_edge_kind` (pass file lines 27-35): the per-op classifier. -/
def implicit_edge_kind : COp → ImplicitEdgeKind
  | .start | .final => .noEdges
  | .readInput _ | .clock | .sr | .readProperty _ | .constant _ => .start
  | .negate | .binOp _ | .cast _ | .readState _ _ => .noEdges
  | .writeOutput _ | .writeState _ _ => .final

/-- The op stored at node index `n`.  The pass only looks nodes up through
indices obtained from the topological sort, which are always in range;
the source uses `.unwrap()`. -/
def CProgram.opAt (p : CProgram) (n : Nat) : COp :=
  (p.nodes.getD n ⟨.start, none, none⟩).op

/-- Model of `node_has_edge_from_kind` (pass file lines 37-45), applied as in the
pass to `edges_directed(node, Incoming)`: does any INCOMING edge of `n`
have a source node whose op satisfies `pred`? -/
def node_has_edge_from_kind (p : CProgram) (n : Nat) (pred : COp → Bool) :
    Bool :=
  p.edges.any fun e =>
    e.dst = n &&
      match p.nodes.get? e.src with
      | some nd => pred nd.op
      | none => false

/-- Diagnostics pushed by `topological_sort` and the pass, abstracted to an
enum carrying the offending node where the source attaches a node ref. -/
inductive PassDiagnostic where
  | graphHasCycle
  | startNodeConnectedToFinal (node : Nat)
  | finalNodeConnectedToStart (node : Nat)
  | connectedToBoth (node : Nat)
  deriving DecidableEq, Repr

/-- One node with no incoming edge from `remaining` can be removed; Kahn
peeling, used to decide whether `petgraph::algo::toposort` succeeds. -/
def hasIncomingFrom (edges : List CEdge) (remaining : List Nat) (n : Nat) :
    Bool :=
  edges.any fun e => e.dst = n && remaining.contains e.src

/-- Kahn peeling with fuel: repeatedly discard the nodes that have no
incoming edge from the remaining set; the graph is acyclic iff the
remaining set empties. -/
def acyclicGo (edges : List CEdge) : Nat → List Nat → Bool
  | 0, remaining => remaining.isEmpty
  | fuel + 1, remaining =>
    if remaining.isEmpty then true
    else
      let stuck := remaining.filter fun n => hasIncomingFrom edges remaining n
      if stuck.length = remaining.length then false
      else acyclicGo edges fuel stuck

/-- Whether `Program::topological_sort` succeeds: the directed graph has no
cycle. -/
def CProgram.isAcyclic (p : CProgram) : Bool :=
  acyclicGo p.edges p.nodes.length (List.range p.nodes.length)

/-- The validation step of the pass (lines 67-114) for one node: compute
`(needs_start, needs_final)` from the classifier and `has_start` /
`has_final` from the incoming edges, then the three error branches in
source order. -/
def validateNode (p : CProgram) (n : Nat) : Option PassDiagnostic :=
  let kind := implicit_edge_kind (p.opAt n)
  let needsStart := kind = ImplicitEdgeKind.start
  let needsFinal := kind = ImplicitEdgeKind.final
  let hasStart := node_has_edge_from_kind p n COp.is_start
  let hasFinal := node_has_edge_from_kind p n COp.is_final
  if needsStart ∧ hasFinal then some (.startNodeConnectedToFinal n)
  else if hasStart ∧ needsFinal then some (.finalNodeConnectedToStart n)
  else if hasStart ∧ hasFinal then some (.connectedToBoth n)
  else none

/-- All diagnostics produced by the validation loop, in node order.  (The
source walks the topological order; which diagnostics are produced, and
hence whether validation succeeds, does not depend on the order.) -/
def validationDiagnostics (p : CProgram) : List PassDiagnostic :=
  (List.range p.nodes.length).filterMap (validateNode p)

/-- The petgraph operation `Graph::update_edge(a, b, weight)`: if an `a → b` edge
exists, replace its weight; otherwise add a new edge.  The petgraph edge
walk order is an internal detail; this model consistently updates the
first `a → b` edge in list order. -/
def updateEdge : List CEdge → Nat → Nat → Nat → Option Unit → List CEdge
  | [], a, b, inp, sl => [⟨a, b, inp, sl⟩]
  | e :: rest, a, b, inp, sl =>
    if e.src = a ∧ e.dst = b then ⟨a, b, inp, sl⟩ :: rest
    else e :: updateEdge rest a b inp sl

/-- The insertion step of the pass (lines 121-147) for one node: depending
on the classifier, `update_edge(start, node)` or `update_edge(node, final)`
with a fresh `Edge { input: 0, source_loc: None }` weight. -/
def insertStep (p : CProgram) (n : Nat) : CProgram :=
  match implicit_edge_kind (p.opAt n) with
  | .noEdges => p
  | .start => { p with edges := updateEdge p.edges p.startNode n 0 none }
  | .final => { p with edges := updateEdge p.edges n p.finalNode 0 none }

/-- The insertion loop over the sorted node list. -/
def insertLoop (p : CProgram) (ns : List Nat) : CProgram :=
  ns.foldl insertStep p

/-- Model of `insert_start_final_edges` (pass file lines 50-150): topologically sort
(failing with a cycle diagnostic), validate every node (collecting all
diagnostics before failing), then insert the missing implicit edges.
Returns the diagnostics pushed to the collection together with the
`Result`; `Unit` stands for `InsertStartFinalEdgesError`. -/
def insert_start_final_edges (p : CProgram) :
    List PassDiagnostic × Except Unit CProgram :=
  if ¬ p.isAcyclic then ([.graphHasCycle], .error ())
  else if (validationDiagnostics p).isEmpty then
    ([], .ok (insertLoop p (List.range p.nodes.length)))
  else (validationDiagnostics p, .error ())

/-! ## Type inference external-table lookups:
`crates/core/src/passes/type_inference.rs` -/

/-- Model of `DataType` of `crates/core/src/data_type.rs`. -/
inductive CDataType where
  | never
  | vector (vd : CVectorDescriptor)
  deriving DecidableEq, Repr

/-- Diagnostics of the external-table constraint resolution in
`type_inference` (lines 269-330). -/
inductive TypeInfDiagnostic where
  | inputOutOfRange (i : Nat)
  | propertyOutOfRange (i : Nat)
  | outputOutOfRange (o : Nat)
  | outputTypeMismatch (o : Nat)
  deriving DecidableEq, Repr

/-- Resolution of the `IsFromInput(i)` constraint (lines 269-283):
`program.inputs.get(i)`, out-of-range producing a diagnostic and skipping
the node. -/
def isFromInputResolve (p : CProgram) (i : Nat) :
    Except TypeInfDiagnostic CDataType :=
  match p.inputs.get? i with
  | some x => .ok (.vector x)
  | none => .error (.inputOutOfRange i)

/-- Resolution of the `IsFromProperty(i)` constraint (lines 284-298). -/
def isFromPropertyResolve (p : CProgram) (i : Nat) :
    Except TypeInfDiagnostic CDataType :=
  match p.properties.get? i with
  | some x => .ok (.vector ⟨x, 1⟩)
  | none => .error (.propertyOutOfRange i)

/-- Resolution of the `IsFromOutput(o)` constraint (lines 299-330): the
table lookup, then the cross-check of the unified input descriptor against
the declared output type. -/
def isFromOutputResolve (p : CProgram) (o : Nat) (has : CVectorDescriptor) :
    Except TypeInfDiagnostic CDataType :=
  match p.outputs.get? o with
  | some x =>
    if CDataType.vector x ≠ CDataType.vector has then
      .error (.outputTypeMismatch o)
    else .ok (.vector x)
  | none => .error (.outputOutOfRange o)

/-! ## Instruction IR: `crates/dsp_ir` (the fragment the claims exercise) -/

/-- Model of `Primitive` of `crates/dsp_ir/src/types.rs`. -/
inductive IPrimitive where
  | i32
  | i64
  | f32
  | f64
  | bool
  deriving DecidableEq, Repr

/-- Model of `Type` of `crates/dsp_ir/src/types.rs`: primitive, vector width and
buffer length.  `Type::new` rejects zero widths and lengths
(`NonZeroU64`), so every `IType` reachable through the API has
`1 ≤ vectorWidth` and `1 ≤ bufferLength`. -/
structure IType where
  primitive : IPrimitive
  vectorWidth : Nat
  bufferLength : Nat
  deriving DecidableEq, Repr

/-- Model of `Constant` of `crates/dsp_ir/src/constant.rs` (`ConstantInner`):
boolean, integral or float species.  The decimal float payload is modelled
as `Rat`. -/
inductive DConstant where
  | boolean (v : List Bool)
  | integral (v : List Int)
  | float (v : List Rat)
  deriving DecidableEq, Repr

/-- Model of `ValueKind` of `crates/dsp_ir/src/context/value_ref.rs`, with the
constant arena flattened into the descriptor (constants are inserted once
and never mutated). -/
inductive IValueKind where
  | constant (c : DConstant)
  | computed
  deriving DecidableEq, Repr

/-- Model of `ValueDescriptor` of `crates/dsp_ir/src/context/value_ref.rs`. -/
structure IValueDescriptor where
  valueType : IType
  kind : IValueKind
  deriving DecidableEq, Repr

/-- The instruction kinds of `crates/dsp_ir/src/instruction.rs` exercised
by the claims.  `ValueRef` and `StateRef` are arena indices (`Nat`).
The remaining kinds (Sub/Mul/Div/Min/Max/ModPositive/Pow/Clamp/trig/
ToF64/ReadProperty/ReadTime*) follow the same dispatch shape and are not
needed by any claim; their scalar semantics for `ModPositive` is embedded
separately as `remScalarInt` below. -/
inductive IInstruction where
  | add (output left right : Nat)
  | readState (output state index : Nat) (isRelative : Bool)
  | writeState (input state index : Nat) (isRelative : Bool)
  | toF32 (output input : Nat)
  | writeOutput (input : Nat) (index : Nat)
  | readInput (output : Nat) (index : Nat)
  deriving DecidableEq, Repr

/-- Model of `Context` of `crates/dsp_ir/src/context/mod.rs` (the fields the
interpreter consumes): block size, sample rate, external type tables,
value and state descriptor arenas, and the ordered instruction schedule. -/
structure IContext where
  blockSize : Nat
  sampleRate : Nat
  inputs : List IType
  outputs : List IType
  properties : List IType
  values : List IValueDescriptor
  states : List IType
  program : List IInstruction
  deriving DecidableEq, Repr

/-! ## The reference interpreter: `crates/interpreter/src/lib.rs` and
`crates/interpreter/src/ops.rs` -/

/-- Model of `Value` of `crates/interpreter/src/lib.rs`: a flat array tagged with
the primitive.  `f32`/`f64` payloads are modelled as `Rat`. -/
inductive IValue where
  | i32 (v : List Int)
  | i64 (v : List Int)
  | f32 (v : List Rat)
  | f64 (v : List Rat)
  deriving DecidableEq, Repr

/-- Model of `Value::len`. -/
def IValue.len : IValue → Nat
  | .i32 v => v.length
  | .i64 v => v.length
  | .f32 v => v.length
  | .f64 v => v.length

/-- Interpreter runtime errors (`anyhow` messages, abstracted). -/
inductive InterpError where
  | boolUnsupported
  | nonF32Input
  | nonF32Output
  | nonF64Property
  | valueForRefNotFound
  | doubleSetValue
  | operandTypeMismatch
  | stateNotSet
  | indexNotScalar
  | indexNotIntegral
  | vectorUsedAsBuffer
  | stateIndexOutOfRange
  | inputValueNotSet
  | inputIndexOutOfRange
  | outputIndexOutOfRange
  | outputWidthMismatch
  | onlyF32Outputs
  | panickedSliceMismatch
  deriving DecidableEq, Repr

/-- The Rust cast `x as i32` from `i64`: wrap into `[-2^31, 2^31)`. -/
def wrap32 (x : Int) : Int := (x + 2 ^ 31) % 2 ^ 32 - 2 ^ 31

/-- The Rust cast of a float to `i32`/`i64` truncates toward zero
(ignoring the saturation at the extremes, which no claim reaches). -/
def ratTrunc (q : Rat) : Int := if 0 ≤ q then q.floor else q.ceil

/-- Model of `Value::new_zero_from_ty`: a zero-filled flat array of length
`vector_width * buffer_length` of the matching primitive. -/
def newZeroFromTy (ty : IType) : Except InterpError IValue :=
  let length := ty.vectorWidth * ty.bufferLength
  match ty.primitive with
  | .f32 => .ok (.f32 (List.replicate length 0))
  | .f64 => .ok (.f64 (List.replicate length 0))
  | .i32 => .ok (.i32 (List.replicate length 0))
  | .i64 => .ok (.i64 (List.replicate length 0))
  | .bool => .error .boolUnsupported

/-- The constant pre-resolution of `Interpreter::new` (lines 123-161): a
constant is narrowed to the PRIMITIVE OF ITS VALUE TYPE with Rust `as`
casts.  Integer-to-float casts are exact for the magnitudes any claim
reaches (far below `2^24`). -/
def narrowConstant (prim : IPrimitive) (c : DConstant) :
    Except InterpError IValue :=
  match c, prim with
  | .boolean _, _ => .error .boolUnsupported
  | _, .bool => .error .boolUnsupported
  | .integral y, .i32 => .ok (.i32 (y.map wrap32))
  | .integral y, .i64 => .ok (.i64 y)
  | .integral y, .f32 => .ok (.f32 (y.map fun i => (i : Rat)))
  | .integral y, .f64 => .ok (.f64 (y.map fun i => (i : Rat)))
  | .float y, .f32 => .ok (.f32 y)
  | .float y, .f64 => .ok (.f64 y)
  | .float y, .i32 => .ok (.i32 (y.map fun q => wrap32 (ratTrunc q)))
  | .float y, .i64 => .ok (.i64 (y.map ratTrunc))

/-- Model of `Interpreter` of `crates/interpreter/src/lib.rs`.  The three hash maps
keyed by `ValueRef`/`StateRef` are modelled as association lists keyed by
the arena index. -/
structure SInterpreter where
  inputs : List (List Rat)
  outputs : List (List Rat)
  properties : List Rat
  values : List (Nat × IValue)
  constantValues : List (Nat × IValue)
  state : List (Nat × IValue)
  blockOffset : Nat
  blockCounter : Nat
  deriving DecidableEq, Repr

namespace SInterpreter

/-- Model of `Interpreter::new` (lines 70-164): F32-only input/output buffers sized
`width * block_size`, F64-only zero properties, zero-initialized states,
and the pre-resolved constant table. -/
def new (ctx : IContext) : Except InterpError SInterpreter := do
  let inputs ← ctx.inputs.mapM fun input =>
    if input.primitive ≠ IPrimitive.f32 then .error .nonF32Input
    else .ok (List.replicate (input.vectorWidth * ctx.blockSize) (0 : Rat))
  let outputs ← ctx.outputs.mapM fun output =>
    if output.primitive ≠ IPrimitive.f32 then .error .nonF32Output
    else .ok (List.replicate (output.vectorWidth * ctx.blockSize) (0 : Rat))
  let properties ← ctx.properties.mapM fun prop =>
    if prop.primitive ≠ IPrimitive.f64 then .error .nonF64Property
    else .ok (0 : Rat)
  let state ← (List.range ctx.states.length).mapM fun sref => do
    match ctx.states.get? sref with
    | some ty => .ok (sref, ← newZeroFromTy ty)
    | none => .error .stateNotSet
  let constantValues ← (List.range ctx.values.length).mapM fun vref => do
    match ctx.values.get? vref with
    | some vd =>
      match vd.kind with
      | .constant c =>
        .ok (some (vref, ← narrowConstant vd.valueType.primitive c))
      | .computed => .ok none
    | none => .error .valueForRefNotFound
  .ok { inputs, outputs, properties, values := [],
        constantValues := constantValues.filterMap id, state,
        blockOffset := 0, blockCounter := 0 }

/-- Model of `Interpreter::get_value_for_ref`: the transient table first, then the
pre-resolved constants. -/
def get_value_for_ref (it : SInterpreter) (vref : Nat) :
    Except InterpError IValue :=
  match it.values.lookup vref with
  | some v => .ok v
  | none =>
    match it.constantValues.lookup vref with
    | some v => .ok v
    | none => .error .valueForRefNotFound

/-- Model of `Interpreter::set_value`: fails on a double set. -/
def set_value (it : SInterpreter) (vref : Nat) (value : IValue) :
    Except InterpError SInterpreter :=
  if (it.values.lookup vref).isSome then .error .doubleSetValue
  else .ok { it with values := (vref, value) :: it.values }

/-- Model of `Interpreter::get_time_in_samples`:
`block_counter * block_size + block_offset`. -/
def get_time_in_samples (it : SInterpreter) (ctx : IContext) : Nat :=
  it.blockCounter * ctx.blockSize + it.blockOffset

end SInterpreter

/-- The loop body of the `op_impl!` macro of `crates/interpreter/src/ops.rs`
(lines 18-31) for a binary operator: the output has length `nlen` and
element `i` is `f(l[i % l.len()], r[i % r.len()])`.  The source indexes
with `get_unchecked`; operands are nonempty whenever they were produced by
the interpreter, making `getD` indexing exact. -/
def opImplBin (f : α → α → α) [Inhabited α] (nlen : Nat) (l r : List α) :
    List α :=
  (List.range nlen).map fun i =>
    f (l.getD (i % l.length) default) (r.getD (i % r.length) default)

/-- Model of `add_vref` (the `binop!(add, Add, add)` expansion): resolve both
operands, take `nlen` as the larger length, dispatch on the matching
variant pair, and store the result with `set_value`. -/
def add_vref (it : SInterpreter) (output left right : Nat) :
    Except InterpError SInterpreter := do
  let l ← it.get_value_for_ref left
  let r ← it.get_value_for_ref right
  let nlen := max l.len r.len
  match l, r with
  | .i32 a, .i32 b =>
    it.set_value output (.i32 ((opImplBin (· + ·) nlen a b).map wrap32))
  | .i64 a, .i64 b => it.set_value output (.i64 (opImplBin (· + ·) nlen a b))
  | .f32 a, .f32 b => it.set_value output (.f32 (opImplBin (· + ·) nlen a b))
  | .f64 a, .f64 b => it.set_value output (.f64 (opImplBin (· + ·) nlen a b))
  | _, _ => .error .operandTypeMismatch

/-- The scalar semantics of `rem_vref` (the `binop!(rem, Rem, rem)`
expansion) on integers: the Rust `%` operator, which PANICS on a zero
divisor (modelled as `none`) and is the truncated remainder `Int.tmod`
otherwise.  `Inst::ModPositive` dispatches to `rem_vref`
(`crates/interpreter/src/lib.rs` lines 199-203). -/
def remScalarInt (a b : Int) : Option Int :=
  if b = 0 then none else some (Int.tmod a b)

/-- Replace the value stored under the first occurrence of key `k`
(`HashMap` insert-over-existing for the state table). -/
def assocReplace : List (Nat × IValue) → Nat → IValue → List (Nat × IValue)
  | [], _, _ => []
  | (k₀, v₀) :: rest, k, v =>
    if k₀ = k then (k, v) :: rest else (k₀, v₀) :: assocReplace rest k v

/-- The reduced element offset of a state access
(`crates/interpreter/src/ops.rs` lines 263-264 and 319-320):
`(index.rem_euclid(length) as u64 + rel_off).rem_euclid(length) * stride`.
`Int.emod` is exactly `i64::rem_euclid` for a positive divisor. -/
def stateSliceStart (idx : Int) (length stride relOff : Nat) : Nat :=
  ((idx.emod (length : Int)).toNat + relOff) % length * stride

/-- The scalar integral index extraction shared by `read_state_vref` and
`write_state_vref` (ops.rs lines 236-245 / 292-301): the index value must
have length 1 and an integral payload; `i32 as i64` is lossless. -/
def stateIndexScalar (indexVal : IValue) : Except InterpError Int :=
  if indexVal.len ≠ 1 then .error .indexNotScalar
  else
    match indexVal with
    | .f32 _ | .f64 _ => .error .indexNotIntegral
    | .i32 i => .ok (i.getD 0 0)
    | .i64 i => .ok (i.getD 0 0)

/-- Model of `read_state_vref` (ops.rs lines 223-282). -/
def read_state_vref (it : SInterpreter) (ctx : IContext)
    (output state index : Nat) (isRelative : Bool) :
    Except InterpError SInterpreter := do
  let sval ← match it.state.lookup state with
    | some v => .ok v
    | none => .error .stateNotSet
  let indexVal ← it.get_value_for_ref index
  let idx ← stateIndexScalar indexVal
  let ty ← match ctx.states.get? state with
    | some ty => .ok ty
    | none => .error .stateNotSet
  let stride := ty.vectorWidth
  let length := ty.bufferLength
  if length = 1 ∧ idx ≠ 0 then .error .vectorUsedAsBuffer
  else do
    let relOff := if isRelative then it.get_time_in_samples ctx else 0
    let willRead := stateSliceStart idx length stride relOff
    let willReadEnd := willRead + stride
    if willRead ≥ sval.len ∨ willReadEnd > sval.len then
      -- "This is an invariant internal to the interpreter because of the
      -- modulus."
      .error .stateIndexOutOfRange
    else
      let readVal := match sval with
        | .f32 x => IValue.f32 ((x.drop willRead).take stride)
        | .f64 x => IValue.f64 ((x.drop willRead).take stride)
        | .i32 x => IValue.i32 ((x.drop willRead).take stride)
        | .i64 x => IValue.i64 ((x.drop willRead).take stride)
      it.set_value output readVal

/-- Model of `write_state_vref` (ops.rs lines 284-355).  The value to write is
looked up in the TRANSIENT table only (`self.values.get(&input)`), and the
final `copy_from_slice` is a Rust panic when the written value does not
have exactly `stride` elements. -/
def write_state_vref (it : SInterpreter) (ctx : IContext)
    (input state index : Nat) (isRelative : Bool) :
    Except InterpError SInterpreter := do
  let indexVal ← it.get_value_for_ref index
  let idx ← stateIndexScalar indexVal
  let ty ← match ctx.states.get? state with
    | some ty => .ok ty
    | none => .error .stateNotSet
  let stride := ty.vectorWidth
  let length := ty.bufferLength
  if length = 1 ∧ idx ≠ 0 then .error .vectorUsedAsBuffer
  else do
    let relOff := if isRelative then it.get_time_in_samples ctx else 0
    let willWrite := stateSliceStart idx length stride relOff
    let willWriteEnd := willWrite + stride
    let sval ← match it.state.lookup state with
      | some v => .ok v
      | none => .error .stateNotSet
    let wval ← match it.values.lookup input with
      | some v => .ok v
      | none => .error .inputValueNotSet
    if willWrite ≥ sval.len ∨ willWriteEnd > sval.len then
      .error .stateIndexOutOfRange
    else do
      let newSval ← match sval, wval with
        | IValue.f32 d, IValue.f32 s =>
          if s.length ≠ stride then .error .panickedSliceMismatch
          else .ok (IValue.f32 (d.take willWrite ++ s ++ d.drop willWriteEnd))
        | IValue.f64 d, IValue.f64 s =>
          if s.length ≠ stride then .error .panickedSliceMismatch
          else .ok (IValue.f64 (d.take willWrite ++ s ++ d.drop willWriteEnd))
        | IValue.i32 d, IValue.i32 s =>
          if s.length ≠ stride then .error .panickedSliceMismatch
          else .ok (IValue.i32 (d.take willWrite ++ s ++ d.drop willWriteEnd))
        | IValue.i64 d, IValue.i64 s =>
          if s.length ≠ stride then .error .panickedSliceMismatch
          else .ok (IValue.i64 (d.take willWrite ++ s ++ d.drop willWriteEnd))
        | _, _ => .error .operandTypeMismatch
      .ok { it with state := assocReplace it.state state newSval }

/-- Model of `to_f32_vref` (ops.rs lines 465-481): the Rust `as f32` casts; exact
for the integer magnitudes any claim reaches. -/
def to_f32_vref (it : SInterpreter) (output input : Nat) :
    Except InterpError SInterpreter := do
  let valIn ← it.get_value_for_ref input
  let valOut := match valIn with
    | .f32 x => IValue.f32 x
    | .f64 x => IValue.f32 x
    | .i32 x => IValue.f32 (x.map fun i => (i : Rat))
    | .i64 x => IValue.f32 (x.map fun i => (i : Rat))
  it.set_value output valOut

/-- Model of `read_input_vref` (ops.rs lines 395-421): read `stride` elements of
host input buffer `index` at offset `block_offset * stride`.  The slice
expression panics when it overruns the buffer. -/
def read_input_vref (it : SInterpreter) (ctx : IContext)
    (output : Nat) (index : Nat) : Except InterpError SInterpreter := do
  let ity ← match ctx.inputs.get? index with
    | some ty => .ok ty
    | none => .error .inputIndexOutOfRange
  let stride := ity.vectorWidth
  let offset := it.blockOffset * stride
  let arr ← match it.inputs.get? index with
    | some a => .ok a
    | none => .error .inputIndexOutOfRange
  if offset + stride > arr.length then .error .panickedSliceMismatch
  else
    it.set_value output (.f32 ((arr.drop offset).take stride))

/-- Model of `write_output_vref` (ops.rs lines 423-463): only F32 values of exactly
the declared output width may be written; `stride` elements are copied to
host output buffer `index` at offset `block_offset * stride`.  The value is
looked up in the transient table only. -/
def write_output_vref (it : SInterpreter) (ctx : IContext)
    (input : Nat) (index : Nat) : Except InterpError SInterpreter := do
  let oty ← match ctx.outputs.get? index with
    | some ty => .ok ty
    | none => .error .outputIndexOutOfRange
  let stride := oty.vectorWidth
  let oArr ← match it.outputs.get? index with
    | some a => .ok a
    | none => .error .outputIndexOutOfRange
  let val ← match it.values.lookup input with
    | some v => .ok v
    | none => .error .inputValueNotSet
  match val with
  | .f32 x =>
    if x.length ≠ stride then .error .outputWidthMismatch
    else
      let start := it.blockOffset * stride
      if start + stride > oArr.length then .error .panickedSliceMismatch
      else
        let newArr := oArr.take start ++ x ++ oArr.drop (start + stride)
        .ok { it with outputs := it.outputs.set index newArr }
  | _ => .error .onlyF32Outputs

/-- Model of `Interpreter::exec_one_instruction`
(`crates/interpreter/src/lib.rs` lines 173-270), restricted to the
embedded instruction kinds. -/
def exec_one_instruction (ctx : IContext) (it : SInterpreter) :
    IInstruction → Except InterpError SInterpreter
  | .add output left right => add_vref it output left right
  | .readState output state index isRel =>
    read_state_vref it ctx output state index isRel
  | .writeState input state index isRel =>
    write_state_vref it ctx input state index isRel
  | .toF32 output input => to_f32_vref it output input
  | .writeOutput input index => write_output_vref it ctx input index
  | .readInput output index => read_input_vref it ctx output index

/-- Model of `Interpreter::run_block` (lib.rs lines 272-287): for each sample offset
of the block, set `block_offset`, execute every instruction in program
order, clear the transient values; finally advance `block_counter`. -/
def run_block (ctx : IContext) (it : SInterpreter) :
    Except InterpError SInterpreter := do
  let it ← (List.range ctx.blockSize).foldlM
    (fun it i => do
      let it := { it with blockOffset := i }
      let it ← ctx.program.foldlM (exec_one_instruction ctx) it
      pure { it with values := [] })
    it
  pure { it with blockCounter := it.blockCounter + 1 }

/-! ## Concrete programs used by the claims -/

/-- Whether an `Except` is a success. -/
def isOkE : Except ε α → Bool
  | .ok _ => true
  | .error _ => false

/-- The `simple_accumulator` program of
`crates/test_bench/src/ir/state.rs` (lines 9-43), as the `Context` the
builder calls produce: one F32 scalar output, a width-1 I32 state, the
constants 0 and 1 (values 0 and 1), and in program order
`read = ReadState(state, 0)` (value 2), `added = Add(read, 1)` (value 3),
`WriteState(state, added, 0)`, `float = ToF32(read)` (value 4),
`WriteOutput(float, 0)`, with `block_size = 8`. -/
def accCtx : IContext where
  blockSize := 8
  sampleRate := 44100
  inputs := []
  outputs := [⟨.f32, 1, 1⟩]
  properties := []
  values :=
    [ ⟨⟨.i32, 1, 1⟩, .constant (.integral [0])⟩,
      ⟨⟨.i32, 1, 1⟩, .constant (.integral [1])⟩,
      ⟨⟨.i32, 1, 1⟩, .computed⟩,
      ⟨⟨.i32, 1, 1⟩, .computed⟩,
      ⟨⟨.f32, 1, 1⟩, .computed⟩ ]
  states := [⟨.i32, 1, 1⟩]
  program :=
    [ .readState 2 0 0 false,
      .add 3 2 1,
      .writeState 3 0 0 false,
      .toF32 4 2,
      .writeOutput 4 0 ]

/-- A program holding a ReadInput node (index 2) with a user edge to the
final node: the failing input of claim C7.  Built through the `Program`
API: `new`, `add_input(F32, 1)`, `op_read_input_node(0)`,
`connect(read, final_node, 0)`. -/
def c7Program : Except ProgramError CProgram := do
  let p := CProgram.new
  let (p, _i) ← p.add_input .f32 1
  let (p, r) ← p.op_read_input_node 0 none
  let p ← p.connect r p.finalNode 0 none
  pure p

/-- A program holding a ReadInput node (index 2) with a user edge INTO the
start node: the counterexample input of claim C9. -/
def c9Program : Except ProgramError CProgram := do
  let p := CProgram.new
  let (p, _i) ← p.add_input .f32 1
  let (p, r) ← p.op_read_input_node 0 none
  let p ← p.connect r p.startNode 0 none
  pure p

/-- Model of `Program::op_negate_node` (a `decl_simple_op_method!` expansion). -/
def CProgram.op_negate_node (p : CProgram) (sourceLoc : Option Unit) :
    Except ProgramError (CProgram × Nat) :=
  .ok (p.op_node .negate none sourceLoc)

/-- Two Negate nodes (indices 2 and 3) with the SAME `(src, dst, input)`
triple connected twice: the counterexample input of claim C3. -/
def c3Program : Except ProgramError CProgram := do
  let p := CProgram.new
  let (p, a) ← p.op_negate_node none
  let (p, b) ← p.op_negate_node none
  let p ← p.connect a b 0 none
  let p ← p.connect a b 0 none
  pure p

/-- The program of the C6 failing input: two inputs, then one output. -/
def c6Program : Except ProgramError (CProgram × Nat) := do
  let p := CProgram.new
  let (p, _i0) ← p.add_input .f32 1
  let (p, _i1) ← p.add_input .f32 1
  let (p, o0) ← p.add_output .f32 1
  pure (p, o0)

/-! ## Theorems for the claims -/

instance [DecidableEq ε] [DecidableEq α] : DecidableEq (Except ε α) :=
  fun x y =>
    match x, y with
    | .ok a, .ok b =>
      if h : a = b then isTrue (by rw [h]) else isFalse (by simp [h])
    | .error a, .error b =>
      if h : a = b then isTrue (by rw [h]) else isFalse (by simp [h])
    | .ok _, .error _ => isFalse (by simp)
    | .error _, .ok _ => isFalse (by simp)

/-- C2.  Accumulator round-trip: on the program that reads a width-1 I32
state at index 0, adds the constant 1, writes the sum back, converts the
read value to F32 and writes it to output 0, with `block_size = 8`, the
first interpreter block yields output buffer `[0,1,2,3,4,5,6,7]` and a
second block on the same interpreter yields `[8,...,15]`: the
zero-initialized state persists across blocks. -/
theorem accumulator_two_blocks :
    (do
      let it0 ← SInterpreter.new accCtx
      let it1 ← run_block accCtx it0
      let it2 ← run_block accCtx it1
      pure (it1.outputs, it2.outputs)) =
    Except.ok ([[(0 : Rat), 1, 2, 3, 4, 5, 6, 7]],
      [[(8 : Rat), 9, 10, 11, 12, 13, 14, 15]]) := by
  decide

/-- C1.  The broadcasting law fails on the core crate: `fold_add` on the
i64 constants `[5]` (width 1) and `[1,2,3]` (width 3) passes the width
check but then panics on the out-of-bounds index `l[1]` (the `arm!` macro
indexes both operands by `i % total_len`), instead of producing `[6,7,8]`.
The `broadcasting_op` of the const crate computes the law correctly on the
same input. -/
theorem fold_add_broadcast_panics :
    CoreConstant.fold_add (.i64 [5]) (.i64 [1, 2, 3]) =
      .error .panicked ∧
    ConstConstant.try_add (.i64 [5]) (.i64 [1, 2, 3]) =
      .ok (.i64 [6, 7, 8]) := by
  decide

/-- C5.  `Program::new` creates TWO nodes with `Op::Start` and NO node
with `Op::Final`: the node registered as `final_node` also carries
`Op::Start` (program.rs lines 65-69), contradicting the claim that a fresh
program holds exactly one Start node and one Final node. -/
theorem program_new_start_final_ops :
    (CProgram.new.nodes.filter fun nd => nd.op.is_start).length = 2 ∧
    (CProgram.new.nodes.filter fun nd => nd.op.is_final).length = 0 ∧
    CProgram.new.nodes.get? CProgram.new.startNode =
      some ⟨.start, none, none⟩ ∧
    CProgram.new.nodes.get? CProgram.new.finalNode =
      some ⟨.start, none, none⟩ := by
  decide

/-- C6.  `add_output` returns `inputs.len() - 1` instead of the position
of the new output: on a program with two inputs, the first `add_output`
returns 1 even though the outputs table has length 1, so the returned
index does not refer to any output. -/
theorem add_output_returns_input_index :
    (c6Program.map fun pr =>
      (pr.2, pr.1.outputs.length, (pr.1.outputs.get? pr.2).isNone)) =
    .ok (1, 1, true) := by
  decide

/-- C3 counterexample.  `connect` does not reject an existing
`(src, dst, input_index)` triple: connecting node 2 to node 3 at input 0
twice succeeds both times and leaves two identical parallel edges. -/
theorem connect_duplicate_succeeds :
    (c3Program.map fun p =>
      (p.edges.filter fun e =>
        e.src = 2 ∧ e.dst = 3 ∧ e.input = 0).length) = .ok 2 := by
  decide

/-- C7.  On a graph whose ReadInput node has a user edge TO the final
node, `insert_start_final_edges` succeeds without pushing any diagnostic
(the `has_final` probe only inspects INCOMING edges, and the final node of
`Program::new` carries `Op::Start` anyway), instead of failing with a
diagnostic as the claim requires. -/
theorem start_final_pass_misses_read_input_to_final :
    (c7Program.map fun p =>
      ((insert_start_final_edges p).1, isOkE (insert_start_final_edges p).2))
    = .ok ([], true) := by
  decide

/-- C9 counterexample.  The pass is not idempotent in the claimed sense:
on a graph with a user edge from a ReadInput node into the start node the
first run succeeds (inserting the implicit Start → ReadInput edge and
thereby creating a cycle), and the second run fails with a cycle
diagnostic. -/
theorem start_final_pass_second_run_can_fail :
    (c9Program.map fun p =>
      match (insert_start_final_edges p).2 with
      | .ok g1 =>
        some ((insert_start_final_edges g1).1,
          isOkE (insert_start_final_edges g1).2)
      | .error _ => none) = .ok (some ([.graphHasCycle], false)) := by
  decide

/-- C8 counterexample.  The `rem` fold is not positive-biased: it is the
Rust `%`, the truncated remainder, so `i64[-1] rem i64[3]` folds to
`i64[-1]`, a negative result for a positive divisor.  (`Inst::ModPositive`
dispatches to the same scalar operator, `rem_vref`.) -/
theorem fold_rem_negative_result :
    CoreConstant.fold_rem (.i64 [-1]) (.i64 [3]) = .ok (.i64 [-1]) ∧
    remScalarInt (-1) 3 = some (-1) ∧ ¬ (0 : Int) ≤ -1 := by
  decide

/-- Model of `mapM` over `Option` of a function that always succeeds is the `some`
of the corresponding `map`. -/
lemma mapM_option_of_forall_some {α β : Type} (g : β → Option α) (h : β → α) :
    ∀ xs : List β, (∀ x ∈ xs, g x = some (h x)) →
      xs.mapM g = some (xs.map h) := by
  intro xs
  induction xs with
  | nil => intro _; rfl
  | cons a as ih =>
    intro hx
    rw [← List.mapM'_eq_mapM]
    simp only [List.mapM', List.map]
    rw [hx a (by simp), List.mapM'_eq_mapM,
      ih (fun x hm => hx x (by simp [hm]))]
    rfl

/-- A `getD` at an in-range index is a member of the list. -/
lemma getD_mem_of_lt (l : List Int) (i : Nat) (hi : i < l.length) :
    l.getD i 0 ∈ l := by
  rw [List.getD_eq_get?, List.get?_eq_get hi]
  exact List.get_mem l _ hi

/-- On operands of EQUAL width the `arm!` indexing never goes out of
bounds, so the panic-aware fold succeeds iff every case-closure
application does, producing the element-wise image. -/
lemma doBinopArmPanicking_same_width (l r : List Int)
    (f : Int → Int → Option Int) (g : Int → Int → Int)
    (hlen : l.length = r.length)
    (hf : ∀ i, i < l.length →
      f (l.getD i 0) (r.getD i 0) = some (g (l.getD i 0) (r.getD i 0))) :
    doBinopArmPanicking l.length l r f =
      some ((List.range l.length).map fun i =>
        g (l.getD i 0) (r.getD i 0)) := by
  unfold doBinopArmPanicking
  apply mapM_option_of_forall_some
  intro i hi
  rw [List.mem_range] at hi
  rw [Nat.mod_eq_of_lt hi, List.get?_eq_get hi, List.get?_eq_get (hlen ▸ hi)]
  show f (l.get ⟨i, hi⟩) (r.get ⟨i, hlen ▸ hi⟩) = _
  have h1 : l.get ⟨i, hi⟩ = l.getD i 0 := by
    rw [List.getD_eq_get?, List.get?_eq_get hi]
    rfl
  have h2 : r.get ⟨i, hlen ▸ hi⟩ = r.getD i 0 := by
    rw [List.getD_eq_get?, List.get?_eq_get (hlen ▸ hi)]
    rfl
  rw [h1, h2, hf i hi]

/-- C8 amended.  `fold_rem` (and the scalar operator behind the
`ModPositive` interpreter instruction) is the host truncated remainder
`%`, not a positive-biased modulus: on equal-width integer operands with
nonzero divisors it folds element-wise with `Int.tmod`, whose result
takes the sign of the LEFT operand, and it panics on a zero divisor; the
result is guaranteed non-negative only when the left elements are
non-negative (for positive divisors). -/
theorem fold_rem_is_truncated_rem (l r : List Int)
    (hne : l ≠ []) (hlen : l.length = r.length) (hr : ∀ y ∈ r, y ≠ 0) :
    CoreConstant.fold_rem (.i64 l) (.i64 r) =
      .ok (.i64 ((List.range l.length).map fun i =>
        Int.tmod (l.getD i 0) (r.getD i 0))) ∧
    (∀ k, k < l.length →
      ((List.range l.length).map fun i =>
        Int.tmod (l.getD i 0) (r.getD i 0)).getD k 0 =
        Int.tmod (l.getD k 0) (r.getD k 0)) ∧
    ((∀ x ∈ l, 0 ≤ x) →
      ∀ z ∈ (List.range l.length).map fun i =>
        Int.tmod (l.getD i 0) (r.getD i 0), 0 ≤ z) ∧
    (∀ a b : Int, 0 ≤ a → b ≠ 0 →
      remScalarInt a b = some (Int.tmod a b) ∧ 0 ≤ Int.tmod a b) ∧
    CoreConstant.fold_rem (.i64 [5]) (.i64 [0]) = .error .panicked ∧
    remScalarInt 5 0 = none := by
  have hl0 : l.length ≠ 0 := fun h => hne (List.length_eq_zero.mp h)
  refine ⟨?_, ?_, ?_, ?_, by decide, by decide⟩
  · unfold CoreConstant.fold_rem do_binopFallible
    have hw : CoreConstant.width (.i64 l) = l.length := rfl
    have hw2 : CoreConstant.width (.i64 r) = r.length := rfl
    rw [if_neg (by simp [hw, hw2, hl0, hlen ▸ hl0]),
      if_neg (by simp [hw, hw2, hlen])]
    simp only [hw, hw2, ← hlen, Nat.max_self]
    rw [doBinopArmPanicking_same_width l r i64RemPanicking Int.tmod hlen ?hc]
    case hc =>
      intro i hi
      unfold i64RemPanicking
      rw [if_neg (hr _ (getD_mem_of_lt r i (hlen ▸ hi)))]
  · intro k hk
    rw [List.getD_eq_get?, List.get?_map, List.get?_range hk]
    rfl
  · intro hl z hz
    rw [List.mem_map] at hz
    obtain ⟨i, hi, rfl⟩ := hz
    rw [List.mem_range] at hi
    exact Int.tmod_nonneg _ (hl _ (getD_mem_of_lt l i hi))
  · intro a b ha hb
    unfold remScalarInt
    rw [if_neg hb]
    exact ⟨rfl, Int.tmod_nonneg _ ha⟩

/-- C8 witness: the amended theorem applied to the concrete equal-width
operands `[5, 1]` and `[3, 2]` with nonzero divisors. -/
theorem fold_rem_is_truncated_rem_witness :
    CoreConstant.fold_rem (.i64 [5, 1]) (.i64 [3, 2]) =
      .ok (.i64 ((List.range 2).map fun i =>
        Int.tmod (([5, 1] : List Int).getD i 0)
          (([3, 2] : List Int).getD i 0))) :=
  (fold_rem_is_truncated_rem [5, 1] [3, 2] (by decide) (by decide)
    (by decide)).1

/-- C3 amended.  `connect` fails exactly when one of the two node handles
is unknown; it performs NO duplicate-edge check, so connecting an already
present `(src, dst, input_index)` triple succeeds again and adds a
parallel edge. -/
theorem connect_ok_iff_handles_known (p : CProgram) (s d i : Nat)
    (sl : Option Unit) :
    (isOkE (p.connect s d i sl) = true ↔
      s < p.nodes.length ∧ d < p.nodes.length) ∧
    (∀ q, p.connect s d i sl = .ok q →
      q.edges = p.edges ++ [⟨s, d, i, sl⟩]) := by
  constructor
  · unfold CProgram.connect
    split_ifs with h1 h2
    · simp only [isOkE, Bool.false_eq_true, false_iff]
      rw [Option.isNone_iff_eq_none, List.get?_eq_none] at h1
      omega
    · simp only [isOkE, Bool.false_eq_true, false_iff]
      rw [Option.isNone_iff_eq_none, List.get?_eq_none] at h2
      omega
    · simp only [isOkE, true_iff]
      rw [Option.isNone_iff_eq_none, List.get?_eq_none] at h1 h2
      omega
  · intro q hq
    unfold CProgram.connect at hq
    split_ifs at hq
    cases hq
    rfl

/-- C3 witness: the amended theorem at a concrete program, showing that
the successful `connect` appended the edge. -/
theorem connect_ok_iff_handles_known_witness :
    ({ CProgram.new with edges := [⟨0, 1, 0, none⟩] } : CProgram).edges =
      CProgram.new.edges ++ [⟨0, 1, 0, none⟩] :=
  (connect_ok_iff_handles_known CProgram.new 0 1 0 none).2 _ (by decide)

/-- C10.  The node constructors `op_read_input_node`,
`op_read_property_node` and `op_write_output_node` reject only indices
STRICTLY greater than the corresponding table length, so the first
out-of-range index (equal to the length) is accepted; the reference is
diagnosed only by the type-inference external-table lookups, which report
index = length as out of range. -/
theorem node_ctor_off_by_one_guards (p : CProgram) :
    (∀ i, isOkE (p.op_read_input_node i none) = true ↔
      i ≤ p.inputs.length) ∧
    (∀ i, isOkE (p.op_read_property_node i none) = true ↔
      i ≤ p.properties.length) ∧
    (∀ i, isOkE (p.op_write_output_node i none) = true ↔
      i ≤ p.outputs.length) ∧
    isFromInputResolve p p.inputs.length =
      .error (.inputOutOfRange p.inputs.length) ∧
    isFromPropertyResolve p p.properties.length =
      .error (.propertyOutOfRange p.properties.length) ∧
    (∀ vd, isFromOutputResolve p p.outputs.length vd =
      .error (.outputOutOfRange p.outputs.length)) := by
  refine ⟨?_, ?_, ?_, ?_, ?_, ?_⟩
  · intro i
    unfold CProgram.op_read_input_node
    split_ifs with h <;> simp [isOkE] <;> omega
  · intro i
    unfold CProgram.op_read_property_node
    split_ifs with h <;> simp [isOkE] <;> omega
  · intro i
    unfold CProgram.op_write_output_node
    split_ifs with h <;> simp [isOkE] <;> omega
  · unfold isFromInputResolve
    rw [List.get?_eq_none.mpr (le_refl _)]
  · unfold isFromPropertyResolve
    rw [List.get?_eq_none.mpr (le_refl _)]
  · intro vd
    unfold isFromOutputResolve
    rw [List.get?_eq_none.mpr (le_refl _)]

/-- C4.  State indexing of the interpreter: for a state of buffer length
`L ≥ 1` and vector width `W ≥ 1` whose stored array has length `W * L`,
both `read_state_vref` and `write_state_vref` (plain and Relative) succeed,
accessing exactly the `W` consecutive elements starting at element offset
`((idx.rem_euclid L) + t).rem_euclid L * W`, where `t` is the current
sample index (`block_counter * block_size + block_offset`) for the
Relative variants and 0 otherwise; the out-of-range error branch after the
reduction is never taken. -/
theorem state_access_window (xs ws : List Int) (idx : Int)
    (W L B bc bo : Nat) (rel : Bool)
    (hW : 0 < W) (hL : 0 < L) (hlen : xs.length = W * L)
    (hidx : L = 1 → idx = 0) (hws : ws.length = W) :
    let ctx : IContext :=
      { blockSize := B, sampleRate := 44100, inputs := [], outputs := [],
        properties := [], values := [], states := [⟨.i64, W, L⟩],
        program := [] }
    let it : SInterpreter :=
      { inputs := [], outputs := [], properties := [],
        values := [(1, .i64 [idx]), (2, .i64 ws)], constantValues := [],
        state := [(0, .i64 xs)], blockOffset := bo, blockCounter := bc }
    let t := if rel then bc * B + bo else 0
    let off := ((idx.emod (L : Int)).toNat + t) % L * W
    off + W ≤ xs.length ∧
    read_state_vref it ctx 9 0 1 rel =
      .ok { it with values := (9, .i64 ((xs.drop off).take W)) :: it.values } ∧
    write_state_vref it ctx 2 0 1 rel =
      .ok { it with
        state := [(0, .i64 (xs.take off ++ ws ++ xs.drop (off + W)))] } := by
  intro ctx it t off
  have hmod : ((idx.emod (L : Int)).toNat + t) % L < L :=
    Nat.mod_lt _ hL
  have hbound : off + W ≤ xs.length := by
    have h1 : (((idx.emod (L : Int)).toNat + t) % L + 1) * W ≤ L * W :=
      Nat.mul_le_mul_right W hmod
    calc off + W = (((idx.emod (L : Int)).toNat + t) % L + 1) * W := by ring
    _ ≤ L * W := h1
    _ = xs.length := by rw [hlen, Nat.mul_comm]
  have htime : it.get_time_in_samples ctx = bc * B + bo := rfl
  have hrel : (if rel then it.get_time_in_samples ctx else 0) = t := by
    rw [htime]
  have hslice : stateSliceStart idx L W
      (if rel then it.get_time_in_samples ctx else 0) = off := by
    rw [hrel]
    rfl
  have hguard : ¬ (L = 1 ∧ idx ≠ 0) := by
    rintro ⟨h1, h2⟩
    exact h2 (hidx h1)
  have hoff : stateSliceStart idx L W
      (if rel then it.get_time_in_samples ctx else 0) = off := rfl
  have hnoerr : ¬ (stateSliceStart idx L W
      (if rel then it.get_time_in_samples ctx else 0) ≥ xs.length ∨
      stateSliceStart idx L W
        (if rel then it.get_time_in_samples ctx else 0) + W > xs.length) := by
    rw [hoff]
    omega
  refine ⟨hbound, ?_, ?_⟩
  · show (if L = 1 ∧ idx ≠ 0 then
        (Except.error InterpError.vectorUsedAsBuffer :
          Except InterpError SInterpreter)
      else if stateSliceStart idx L W
          (if rel then it.get_time_in_samples ctx else 0) ≥ xs.length ∨
          stateSliceStart idx L W
            (if rel then it.get_time_in_samples ctx else 0) + W > xs.length
        then Except.error InterpError.stateIndexOutOfRange
        else .ok { it with
          values := (9, IValue.i64 ((xs.drop (stateSliceStart idx L W
            (if rel then it.get_time_in_samples ctx else 0))).take W)) ::
            it.values }) = _
    rw [if_neg hguard, if_neg hnoerr, hoff]
  · show (if L = 1 ∧ idx ≠ 0 then
        (Except.error InterpError.vectorUsedAsBuffer :
          Except InterpError SInterpreter)
      else if stateSliceStart idx L W
          (if rel then it.get_time_in_samples ctx else 0) ≥ xs.length ∨
          stateSliceStart idx L W
            (if rel then it.get_time_in_samples ctx else 0) + W > xs.length
        then Except.error InterpError.stateIndexOutOfRange
        else if ws.length ≠ W then Except.error .panickedSliceMismatch
        else .ok { it with
          state := assocReplace it.state 0 (.i64
            (xs.take (stateSliceStart idx L W
              (if rel then it.get_time_in_samples ctx else 0)) ++ ws ++
              xs.drop (stateSliceStart idx L W
                (if rel then it.get_time_in_samples ctx else 0) + W))) }) = _
    rw [if_neg hguard, if_neg hnoerr, if_neg (by omega), hoff]
    rfl

/-- C4 witness: the theorem at `xs = [10,20,30]`, `W = 1`, `L = 3`,
`idx = -2`, non-relative: the reduced offset is 1, the read returns
element `[20]`, the write replaces it with `[7]`. -/
theorem state_access_window_witness :
    let ctx : IContext :=
      { blockSize := 8, sampleRate := 44100, inputs := [], outputs := [],
        properties := [], values := [], states := [⟨.i64, 1, 3⟩],
        program := [] }
    let it : SInterpreter :=
      { inputs := [], outputs := [], properties := [],
        values := [(1, .i64 [-2]), (2, .i64 [7])], constantValues := [],
        state := [(0, .i64 [10, 20, 30])], blockOffset := 0,
        blockCounter := 0 }
    let t := if false then 0 * 8 + 0 else 0
    let off := (((-2 : Int).emod ((3 : Nat) : Int)).toNat + t) % 3 * 1
    off + 1 ≤ ([10, 20, 30] : List Int).length ∧
    read_state_vref it ctx 9 0 1 false =
      .ok { it with
        values := (9, .i64 ((([10, 20, 30] : List Int).drop off).take 1)) ::
          it.values } ∧
    write_state_vref it ctx 2 0 1 false =
      .ok { it with
        state := [(0, .i64 (([10, 20, 30] : List Int).take off ++ [7] ++
          ([10, 20, 30] : List Int).drop (off + 1)))] } :=
  state_access_window [10, 20, 30] [7] (-2) 1 3 8 0 0 false
    (by decide) (by decide) (by decide) (by decide) (by decide)

/-! ### Idempotence machinery for the Start/Final pass (claim C9) -/

/-- Model of `update_edge` with the same endpoints and weight is idempotent. -/
lemma updateEdge_idem (es : List CEdge) (a b : Nat) :
    updateEdge (updateEdge es a b 0 none) a b 0 none =
      updateEdge es a b 0 none := by
  induction es with
  | nil => simp [updateEdge]
  | cons e rest ih =>
    by_cases h : e.src = a ∧ e.dst = b
    · simp [updateEdge, h]
    · simp only [updateEdge, if_neg h, ih]

/-- If an `update_edge` already leaves the edge list unchanged, it still
does after any other `update_edge` with the same fresh weight. -/
lemma updateEdge_fixed_preserved (es : List CEdge) (a b a' b' : Nat)
    (h : updateEdge es a b 0 none = es) :
    updateEdge (updateEdge es a' b' 0 none) a b 0 none =
      updateEdge es a' b' 0 none := by
  induction es with
  | nil => exact absurd h (by simp [updateEdge])
  | cons e rest ih =>
    by_cases h1 : e.src = a ∧ e.dst = b
    · have he : e = ⟨a, b, 0, none⟩ := by
        have := h
        rw [updateEdge, if_pos h1] at this
        exact (List.cons.injEq _ _ _ _ ▸ this).1.symm
      by_cases h2 : e.src = a' ∧ e.dst = b'
      · have hab : a = a' ∧ b = b' := by
          obtain ⟨hs, hd⟩ := h1
          obtain ⟨hs', hd'⟩ := h2
          exact ⟨hs ▸ hs'.symm ▸ rfl, hd ▸ hd'.symm ▸ rfl⟩
        obtain ⟨ha, hb⟩ := hab
        subst ha hb
        rw [updateEdge, if_pos h2, updateEdge, if_pos ⟨rfl, rfl⟩]
      · rw [updateEdge, if_neg h2, updateEdge, if_pos h1, he]
    · have htail : updateEdge rest a b 0 none = rest := by
        have := h
        rw [updateEdge, if_neg h1] at this
        exact (List.cons.injEq _ _ _ _ ▸ this).2
      by_cases h2 : e.src = a' ∧ e.dst = b'
      · rw [updateEdge, if_pos h2, updateEdge, if_neg ?hne, htail]
        case hne =>
          rintro ⟨hs, hd⟩
          obtain ⟨hs', hd'⟩ := h2
          exact h1 ⟨by simp_all, by simp_all⟩
      · rw [updateEdge, if_neg h2, updateEdge, if_neg h1, ih htail]

/-- A node is `stepFixed` in a program when the insertion step for it
leaves the program unchanged. -/
def stepFixed (q : CProgram) (n : Nat) : Prop := insertStep q n = q

/-- Model of `insertStep` only rewrites the edge list. -/
lemma insertStep_frame (q : CProgram) (n : Nat) :
    (insertStep q n).nodes = q.nodes ∧
    (insertStep q n).startNode = q.startNode ∧
    (insertStep q n).finalNode = q.finalNode := by
  unfold insertStep
  cases implicit_edge_kind (q.opAt n) <;> simp

/-- An edits-only record update with an equal edge list is the identity. -/
lemma cprogram_edges_ext (q : CProgram) (es : List CEdge)
    (h : es = q.edges) : ({ q with edges := es } : CProgram) = q := by
  cases q
  simp_all

/-- Model of `insertStep` unfolded for a `noEdges`-classified node. -/
lemma insertStep_eq_noEdges (q : CProgram) (n : Nat)
    (hk : implicit_edge_kind (q.opAt n) = .noEdges) :
    insertStep q n = q := by
  unfold insertStep
  rw [hk]

/-- Model of `insertStep` unfolded for a `Start`-classified node. -/
lemma insertStep_eq_start (q : CProgram) (n : Nat)
    (hk : implicit_edge_kind (q.opAt n) = .start) :
    insertStep q n =
      { q with edges := updateEdge q.edges q.startNode n 0 none } := by
  unfold insertStep
  rw [hk]

/-- Model of `insertStep` unfolded for a `Final`-classified node. -/
lemma insertStep_eq_final (q : CProgram) (n : Nat)
    (hk : implicit_edge_kind (q.opAt n) = .final) :
    insertStep q n =
      { q with edges := updateEdge q.edges n q.finalNode 0 none } := by
  unfold insertStep
  rw [hk]

/-- After `insertStep q n`, the node `n` is `stepFixed`. -/
lemma insertStep_establishes (q : CProgram) (n : Nat) :
    stepFixed (insertStep q n) n := by
  unfold stepFixed
  have hop : (insertStep q n).opAt n = q.opAt n := by
    unfold CProgram.opAt
    rw [(insertStep_frame q n).1]
  cases hk : implicit_edge_kind (q.opAt n) with
  | noEdges =>
    rw [insertStep_eq_noEdges (insertStep q n) n (by rw [hop, hk])]
  | start =>
    rw [insertStep_eq_start (insertStep q n) n (by rw [hop, hk]),
      insertStep_eq_start q n hk]
    exact cprogram_edges_ext _ _ (updateEdge_idem q.edges q.startNode n)
  | final =>
    rw [insertStep_eq_final (insertStep q n) n (by rw [hop, hk]),
      insertStep_eq_final q n hk]
    exact cprogram_edges_ext _ _ (updateEdge_idem q.edges n q.finalNode)

/-- Model of `stepFixed` is preserved by the insertion step of any other node. -/
lemma insertStep_preserves (q : CProgram) (m n : Nat)
    (h : stepFixed q n) : stepFixed (insertStep q m) n := by
  unfold stepFixed
  have hop : (insertStep q m).opAt n = q.opAt n := by
    unfold CProgram.opAt
    rw [(insertStep_frame q m).1]
  unfold stepFixed at h
  cases hkm : implicit_edge_kind (q.opAt m) with
  | noEdges =>
    rw [insertStep_eq_noEdges q m hkm]
    exact h
  | start =>
    cases hkn : implicit_edge_kind (q.opAt n) with
    | noEdges =>
      exact insertStep_eq_noEdges (insertStep q m) n (by rw [hop, hkn])
    | start =>
      have hedges : updateEdge q.edges q.startNode n 0 none = q.edges := by
        have h2 := congrArg CProgram.edges h
        rw [insertStep_eq_start q n hkn] at h2
        exact h2
      rw [insertStep_eq_start (insertStep q m) n (by rw [hop, hkn]),
        insertStep_eq_start q m hkm]
      exact cprogram_edges_ext _ _
        (updateEdge_fixed_preserved q.edges q.startNode n q.startNode m
          hedges)
    | final =>
      have hedges : updateEdge q.edges n q.finalNode 0 none = q.edges := by
        have h2 := congrArg CProgram.edges h
        rw [insertStep_eq_final q n hkn] at h2
        exact h2
      rw [insertStep_eq_final (insertStep q m) n (by rw [hop, hkn]),
        insertStep_eq_start q m hkm]
      exact cprogram_edges_ext _ _
        (updateEdge_fixed_preserved q.edges n q.finalNode q.startNode m
          hedges)
  | final =>
    cases hkn : implicit_edge_kind (q.opAt n) with
    | noEdges =>
      exact insertStep_eq_noEdges (insertStep q m) n (by rw [hop, hkn])
    | start =>
      have hedges : updateEdge q.edges q.startNode n 0 none = q.edges := by
        have h2 := congrArg CProgram.edges h
        rw [insertStep_eq_start q n hkn] at h2
        exact h2
      rw [insertStep_eq_start (insertStep q m) n (by rw [hop, hkn]),
        insertStep_eq_final q m hkm]
      exact cprogram_edges_ext _ _
        (updateEdge_fixed_preserved q.edges q.startNode n m q.finalNode
          hedges)
    | final =>
      have hedges : updateEdge q.edges n q.finalNode 0 none = q.edges := by
        have h2 := congrArg CProgram.edges h
        rw [insertStep_eq_final q n hkn] at h2
        exact h2
      rw [insertStep_eq_final (insertStep q m) n (by rw [hop, hkn]),
        insertStep_eq_final q m hkm]
      exact cprogram_edges_ext _ _
        (updateEdge_fixed_preserved q.edges n q.finalNode m q.finalNode
          hedges)

/-- Every node of the processed list is `stepFixed` in the loop result. -/
lemma insertLoop_establishes : ∀ (ns : List Nat) (q : CProgram) (n : Nat),
    n ∈ ns ∨ stepFixed q n → stepFixed (insertLoop q ns) n := by
  intro ns
  induction ns with
  | nil =>
    intro q n h
    rcases h with h | h
    · cases h
    · exact h
  | cons m rest ih =>
    intro q n h
    show stepFixed (insertLoop (insertStep q m) rest) n
    apply ih
    rcases h with h | h
    · rcases List.mem_cons.mp h with h | h
      · subst h
        exact Or.inr (insertStep_establishes q n)
      · exact Or.inl h
    · exact Or.inr (insertStep_preserves q m n h)

/-- A loop over `stepFixed` nodes is the identity. -/
lemma insertLoop_fixed : ∀ (ns : List Nat) (q : CProgram),
    (∀ n ∈ ns, stepFixed q n) → insertLoop q ns = q := by
  intro ns
  induction ns with
  | nil => intro q _; rfl
  | cons m rest ih =>
    intro q h
    show insertLoop (insertStep q m) rest = q
    rw [h m (by simp)]
    exact ih q fun n hn => h n (by simp [hn])

/-- The loop preserves the node table. -/
lemma insertLoop_frame : ∀ (ns : List Nat) (q : CProgram),
    (insertLoop q ns).nodes = q.nodes := by
  intro ns
  induction ns with
  | nil => intro q; rfl
  | cons m rest ih =>
    intro q
    show (insertLoop (insertStep q m) rest).nodes = q.nodes
    rw [ih, (insertStep_frame q m).1]

/-- C9 amended.  Whenever `insert_start_final_edges` succeeds on a graph
and ALSO succeeds on its own result, the second run returns the first
result unchanged (same nodes and same edge list).  The second run is not
guaranteed to succeed: the edges inserted by the first run can close a
cycle with user edges into the Start node (see the counterexample), in
which case the second run fails at the topological sort. -/
theorem start_final_pass_idempotent_on_success (p g1 g2 : CProgram)
    (h1 : (insert_start_final_edges p).2 = .ok g1)
    (h2 : (insert_start_final_edges g1).2 = .ok g2) : g2 = g1 := by
  have hg1 : g1 = insertLoop p (List.range p.nodes.length) := by
    unfold insert_start_final_edges at h1
    split_ifs at h1 <;> cases h1 <;> rfl
  have hg2 : g2 = insertLoop g1 (List.range g1.nodes.length) := by
    unfold insert_start_final_edges at h2
    split_ifs at h2 <;> cases h2 <;> rfl
  have hnodes : g1.nodes = p.nodes := by
    rw [hg1]
    exact insertLoop_frame _ p
  rw [hg2, hnodes]
  apply insertLoop_fixed
  intro n hn
  rw [hg1]
  exact insertLoop_establishes _ p n (Or.inl hn)

/-- A concrete self-contained program for the C9 witness: one ReadInput
node beside the two boundary nodes. -/
def idemProgram : CProgram where
  inputs := [⟨.f32, 1⟩]
  outputs := []
  properties := []
  states := []
  nodes := [⟨.start, none, none⟩, ⟨.start, none, none⟩,
    ⟨.readInput 0, none, none⟩]
  edges := []
  startNode := 0
  finalNode := 1

/-- The graph after one successful run of the pass on `idemProgram`: the
implicit `Start → ReadInput` edge has been inserted. -/
def idemProgramOnce : CProgram :=
  { idemProgram with edges := [⟨0, 2, 0, none⟩] }

/-- C9 witness: both hypotheses of the amended theorem hold at the
concrete program, and the theorem yields that the second run returns the
first result. -/
theorem start_final_pass_idempotent_witness :
    (insert_start_final_edges idemProgram).2 = .ok idemProgramOnce ∧
    (insert_start_final_edges idemProgramOnce).2 = .ok idemProgramOnce ∧
    idemProgramOnce = idemProgramOnce :=
  ⟨by decide, by decide,
    start_final_pass_idempotent_on_success idemProgram idemProgramOnce
      idemProgramOnce (by decide) (by decide)⟩

end Waveling
